import Mathlib

/-!
Verification of the localized content resolution and date-formatting layer
of the zenith-cv repository.

Shallow embedding conventions:

* A JavaScript `Date` is its time value: epoch milliseconds as an
  unbounded `Int`.
* The host timezone is a fixed offset `off` in minutes, with the sign
  convention of JavaScript `Date.prototype.getTimezoneOffset` (UTC minus
  local), so local time of an instant `t` is `t - off * 60000`.
* `civilFromDays` / `daysFromCivil` model the ECMAScript proleptic
  Gregorian conversions between a day number (days since the Unix epoch)
  and a calendar date (year, month 1..12, day 1..31); `daysFromCivil`
  is total in the day argument, mirroring ECMAScript `MakeDay`, which
  lets a day count overflow into the following month.
* The Astro global object is modelled by its two capabilities the code
  under verification actually uses: the content store backing
  `getEntry` (a function from collection name and slug to an optional
  entry) and the render context returned by `getGlobalContext`, which
  the rendering pipeline is assumed to have initialized.
* A thrown `Error` is modelled as `Except.error` carrying the message
  string; `Except.ok` is a normal return.
-/

namespace ZenithCV

/-- A locale as used by the global context: identified by its code
(for example "en" or "es"). -/
structure Locale where
  code : String
deriving DecidableEq

/-- The slice of the global render context that `getLocalizedEntry`
reads: just the active locale. -/
structure ContextSliceLocale where
  locale : Locale
deriving DecidableEq

/-- The slice of the global render context that `formatDate` reads:
the active locale and the date format pattern. -/
structure RenderContext where
  locale : Locale
  dateFormat : String
deriving DecidableEq

/-- A content collection entry; only the slug is inspected by the code
under verification, the payload is opaque. -/
structure Entry where
  slug : String
  data : String
deriving DecidableEq

/-- The content collections store backing `getEntry` from
`astro:content`: a map from collection name and slug to an optional
entry.  Absence is `none`, mirroring `getEntry` returning `undefined`. -/
abbrev ContentStore := String → String → Option Entry

/-- Model of `getEntry(collection, slug)` from `astro:content`: an exact
slug lookup in the content store. -/
def getEntry (store : ContentStore) (collection slug : String) : Option Entry :=
  store collection slug

/-- Embedding of `getLocalizedEntry` from `src/utils/get-content.ts`:
if the active locale code is "es", first try the slug `id ++ "-es"` and
return that entry when present; otherwise (and on a miss) fall back to
the base slug `id`; throw a content-not-found error naming collection,
id and locale code when the base entry is also missing. -/
def getLocalizedEntry (store : ContentStore) (context : ContextSliceLocale)
    (collection id : String) : Except String Entry :=
  let esAttempt : Option Entry :=
    if context.locale.code = "es" then getEntry store collection (id ++ "-es") else none
  match esAttempt with
  | some esEntry => Except.ok esEntry
  | none =>
    match getEntry store collection id with
    | some baseEntry => Except.ok baseEntry
    | none =>
      Except.error ("Content entry not found: collection=\"" ++ collection ++
        "\", id=\"" ++ id ++ "\", locale=\"" ++ context.locale.code ++ "\"")

/-- Embedding of `getLocalizedSkill`. -/
def getLocalizedSkill (store : ContentStore) (context : ContextSliceLocale)
    (id : String) : Except String Entry :=
  getLocalizedEntry store context "skills" id

/-- Embedding of `getLocalizedJob`. -/
def getLocalizedJob (store : ContentStore) (context : ContextSliceLocale)
    (id : String) : Except String Entry :=
  getLocalizedEntry store context "jobs" id

/-- Embedding of `getLocalizedAchievement`. -/
def getLocalizedAchievement (store : ContentStore) (context : ContextSliceLocale)
    (id : String) : Except String Entry :=
  getLocalizedEntry store context "achievements" id

/-- Embedding of `getLocalizedEducation`. -/
def getLocalizedEducation (store : ContentStore) (context : ContextSliceLocale)
    (id : String) : Except String Entry :=
  getLocalizedEntry store context "education" id

/-- Embedding of `getLocalizedFavorite`. -/
def getLocalizedFavorite (store : ContentStore) (context : ContextSliceLocale)
    (id : String) : Except String Entry :=
  getLocalizedEntry store context "favorites" id

/-- Embedding of `getLocalizedInterest`. -/
def getLocalizedInterest (store : ContentStore) (context : ContextSliceLocale)
    (id : String) : Except String Entry :=
  getLocalizedEntry store context "interests" id

/-- Calendar date (year, month 1..12, day of month) of a day number
(days since 1970-01-01) in the proleptic Gregorian calendar, as computed
by ECMAScript `YearFromTime` / `MonthFromTime` / `DateFromTime`.
Algorithm: Howard Hinnant's `civil_from_days`, floor-division form. -/
def civilFromDays (z0 : Int) : Int × Int × Int :=
  let z := z0 + 719468
  let era := z / 146097
  let doe := z % 146097
  let yoe := (doe - doe / 1460 + doe / 36524 - doe / 146096) / 365
  let doy := doe - (365 * yoe + yoe / 4 - yoe / 100)
  let mp := (5 * doy + 2) / 153
  let d := doy - (153 * mp + 2) / 5 + 1
  let m := mp + (if mp < 10 then 3 else -9)
  (yoe + era * 400 + (if m ≤ 2 then 1 else 0), m, d)

/-- Day number (days since 1970-01-01) of a calendar date, as computed
by ECMAScript `MakeDay` for month in 1..12 (after the constructor's
month normalization); the day argument enters linearly, so a day beyond
the month's length overflows into the following month exactly as
`MakeDay` does.  Algorithm: Howard Hinnant's `days_from_civil`. -/
def daysFromCivil (y m d : Int) : Int :=
  let y' := y - (if m ≤ 2 then 1 else 0)
  let era := y' / 400
  let yoe := y' % 400
  let mp := m + (if 2 < m then -3 else 9)
  let doy := (153 * mp + 2) / 5 + d - 1
  let doe := yoe * 365 + yoe / 4 - yoe / 100 + doy
  era * 146097 + doe - 719468

/-- Model of `Date.prototype.getUTCFullYear`. -/
def getUTCFullYear (t : Int) : Int :=
  (civilFromDays (t / 86400000)).1

/-- Model of `Date.prototype.getUTCMonth` (0-based month). -/
def getUTCMonth (t : Int) : Int :=
  (civilFromDays (t / 86400000)).2.1 - 1

/-- Model of `Date.prototype.getUTCDate` (day of month). -/
def getUTCDate (t : Int) : Int :=
  (civilFromDays (t / 86400000)).2.2

/-- Model of `Date.prototype.getUTCHours`. -/
def getUTCHours (t : Int) : Int :=
  t / 3600000 % 24

/-- Model of `Date.prototype.getUTCMinutes`. -/
def getUTCMinutes (t : Int) : Int :=
  t / 60000 % 60

/-- Model of `Date.prototype.getUTCSeconds`. -/
def getUTCSeconds (t : Int) : Int :=
  t / 1000 % 60

/-- Model of `Date.prototype.getUTCMilliseconds`. -/
def getUTCMilliseconds (t : Int) : Int :=
  t % 1000

/-- Embedding of `isMidnightUtc` from the date formatting module: all
four UTC time-of-day fields are zero. -/
def isMidnightUtc (t : Int) : Bool :=
  getUTCHours t == 0 &&
  getUTCMinutes t == 0 &&
  getUTCSeconds t == 0 &&
  getUTCMilliseconds t == 0

/-- The ECMAScript `Date(year, month, date)` constructor's year rule: an
integer year in 0..99 is interpreted as 1900 + year. -/
def yearMapJS (y : Int) : Int :=
  if 0 ≤ y ∧ y ≤ 99 then 1900 + y else y

/-- Model of `new Date(y, month0, d)` (local-time constructor, 0-based
month in 0..11 as produced by `getUTCMonth`): the time value of local
midnight of the given calendar day, after the two-digit-year rule. -/
def newDateLocal (off y month0 d : Int) : Int :=
  daysFromCivil (yearMapJS y) (month0 + 1) d * 86400000 + off * 60000

/-- Embedding of `normalizeDateOnlyToLocal` from the date formatting
module: a date that is not UTC midnight is returned unchanged; a UTC
midnight date is rebuilt with `new Date(getUTCFullYear, getUTCMonth,
getUTCDate)`, re-anchoring the calendar day to the local timezone. -/
def normalizeDateOnlyToLocal (off t : Int) : Int :=
  if !isMidnightUtc t then t
  else newDateLocal off (getUTCFullYear t) (getUTCMonth t) (getUTCDate t)

/-- Calendar date of the instant `t` in the local timezone of offset
`off`: the field values JavaScript `getFullYear` / `getMonth` (shifted
to 1-based) / `getDate` would report, hence what a pattern formatter
renders. -/
def localCivil (off t : Int) : Int × Int × Int :=
  civilFromDays ((t - off * 60000) / 86400000)

/-- Two-digit zero padding of a day or month number. -/
def pad2 (n : Int) : String :=
  if n < 10 then "0" ++ toString n else toString n

/-- Four-digit zero padding of a year number. -/
def pad4 (n : Int) : String :=
  if n < 0 then toString n
  else if n < 10 then "000" ++ toString n
  else if n < 100 then "00" ++ toString n
  else if n < 1000 then "0" ++ toString n
  else toString n

/-- Rendering of the pattern "dd/MM/yyyy" for the instant `t` in the
local timezone of offset `off`. -/
def formatDMY (off t : Int) : String :=
  pad2 (localCivil off t).2.2 ++ "/" ++ pad2 (localCivil off t).2.1 ++ "/" ++
    pad4 (localCivil off t).1

/-- Modelled from the spec: the external date-fns `format` backend (the
repository only depends on it, its code is not part of the repository),
restricted to the format pattern "dd/MM/yyyy" exercised by the spec's
scenarios: it renders the local-timezone day, month and year of the
instant with zero padding.  The locale argument selects language
material (month names etc.) and does not affect this pattern. -/
def format (off t : Int) (pattern : String) (locale : Locale) : String :=
  if pattern = "dd/MM/yyyy" then formatDMY off t
  else locale.code ++ ":" ++ pattern

/-- Embedding of `formatDate` from the date formatting module: read the
locale and date format from the global context, normalize the date, and
hand it to the formatting backend. -/
def formatDate (off : Int) (context : RenderContext) (t : Int) : String :=
  format off (normalizeDateOnlyToLocal off t) context.dateFormat context.locale

/-- State-passing view of a `Date` object getter: ECMAScript getters
read the internal time value and leave the object unchanged. -/
def readUTCField (f : Int → Int) (d : Int) : Int × Int :=
  (f d, d)

/-- State-passing embedding of `isMidnightUtc`: the four getter reads of
the source, threaded through the date object's state. -/
def isMidnightUtcSt (d : Int) : Bool × Int :=
  let (h, d1) := readUTCField getUTCHours d
  let (mi, d2) := readUTCField getUTCMinutes d1
  let (s, d3) := readUTCField getUTCSeconds d2
  let (ms, d4) := readUTCField getUTCMilliseconds d3
  (h == 0 && mi == 0 && s == 0 && ms == 0, d4)

/-- State-passing embedding of `normalizeDateOnlyToLocal`: every access
the source performs on the input date object, in source order; the
constructed `new Date` is a fresh object and does not alias the input. -/
def normalizeDateOnlyToLocalSt (off d : Int) : Int × Int :=
  let (mid, d1) := isMidnightUtcSt d
  if !mid then (d1, d1)
  else
    let (y, d2) := readUTCField getUTCFullYear d1
    let (m0, d3) := readUTCField getUTCMonth d2
    let (dd, d4) := readUTCField getUTCDate d3
    (newDateLocal off y m0 dd, d4)

/-- State-passing embedding of `formatDate`, returning the rendered
string together with the final state of the input date object. -/
def formatDateSt (off : Int) (context : RenderContext) (d : Int) : String × Int :=
  let (nd, d1) := normalizeDateOnlyToLocalSt off d
  (format off nd context.dateFormat context.locale, d1)

/-- The Spanish locale. -/
def esLocale : Locale := ⟨"es"⟩

/-- The English (primary) locale. -/
def enLocale : Locale := ⟨"en"⟩

/-- Context slice with the Spanish locale active. -/
def esCtx : ContextSliceLocale := ⟨esLocale⟩

/-- Context slice with the English locale active. -/
def enCtx : ContextSliceLocale := ⟨enLocale⟩

/-- Render context of the spec's concrete formatting scenario. -/
def ctxDMY : RenderContext := ⟨esLocale, "dd/MM/yyyy"⟩

/-- Demo entry: base "typescript" record. -/
def typescriptEntry : Entry := ⟨"typescript", "TypeScript"⟩

/-- Demo entry: Spanish "typescript-es" record. -/
def typescriptEsEntry : Entry := ⟨"typescript-es", "TypeScript (es)"⟩

/-- Demo entry: base "senior-developer" record (English only). -/
def seniorDeveloperEntry : Entry := ⟨"senior-developer", "Senior Developer"⟩

/-- Demo store for the skills scenario: both "typescript" and
"typescript-es" are present. -/
def skillsDemoStore : ContentStore := fun c s =>
  if c = "skills" ∧ s = "typescript" then some typescriptEntry
  else if c = "skills" ∧ s = "typescript-es" then some typescriptEsEntry
  else none

/-- Demo store for the jobs scenario: only the English
"senior-developer" record is present. -/
def jobsDemoStore : ContentStore := fun c s =>
  if c = "jobs" ∧ s = "senior-developer" then some seniorDeveloperEntry
  else none

/-- Demo store differing from `skillsDemoStore` only in that the
Spanish "typescript-es" record is absent. -/
def skillsBaseOnlyStore : ContentStore := fun c s =>
  if c = "skills" ∧ s = "typescript" then some typescriptEntry
  else none

set_option maxHeartbeats 8000000 in
/-- Central arithmetic fact behind `civilFromDays`: in Hinnant's
algorithm the day-of-year residue of a day-of-era lies in 0..365. -/
theorem doy_bounds (doe s yoe doy : Int) (h0 : 0 ≤ doe) (h1 : doe ≤ 146096)
    (hs : s = doe - doe / 1460 + doe / 36524 - doe / 146096)
    (hyoe : yoe = s / 365)
    (hdoy : doy = doe - (365 * yoe + yoe / 4 - yoe / 100)) :
    0 ≤ doy ∧ doy ≤ 365 := by
  obtain ⟨a, ha, ha0, ha1⟩ : ∃ a : Int, a = doe / 1460 ∧ 0 ≤ a ∧ a ≤ 100 :=
    ⟨doe / 1460, rfl, by omega, by omega⟩
  interval_cases a <;>
    first
    | omega
    | (obtain ⟨b, hb, hb0, hb1⟩ : ∃ b : Int, b = doe / 36524 ∧ 0 ≤ b ∧ b ≤ 4 :=
        ⟨doe / 36524, rfl, by omega, by omega⟩
       interval_cases b <;> omega)

set_option maxHeartbeats 4000000 in
/-- `daysFromCivil` is a left inverse of `civilFromDays`, stated over
the flattened intermediate quantities of both algorithms. -/
theorem roundtrip_core (n z era doe s yoe doy mp dd m yr y2 era2 yoe2 mp2 doy2 doe2 : Int)
    (hz : z = n + 719468)
    (hera : era = z / 146097)
    (hdoe : doe = z % 146097)
    (hs : s = doe - doe / 1460 + doe / 36524 - doe / 146096)
    (hyoe : yoe = s / 365)
    (hdoy : doy = doe - (365 * yoe + yoe / 4 - yoe / 100))
    (hmp : mp = (5 * doy + 2) / 153)
    (hdd : dd = doy - (153 * mp + 2) / 5 + 1)
    (hm : m = mp + (if mp < 10 then 3 else -9))
    (hyr : yr = yoe + era * 400 + (if m ≤ 2 then 1 else 0))
    (hy2 : y2 = yr - (if m ≤ 2 then 1 else 0))
    (hera2 : era2 = y2 / 400)
    (hyoe2 : yoe2 = y2 % 400)
    (hmp2 : mp2 = m + (if 2 < m then -3 else 9))
    (hdoy2 : doy2 = (153 * mp2 + 2) / 5 + dd - 1)
    (hdoe2 : doe2 = yoe2 * 365 + yoe2 / 4 - yoe2 / 100 + doy2) :
    era2 * 146097 + doe2 - 719468 = n := by
  have hB := doy_bounds doe s yoe doy (by omega) (by omega) hs hyoe hdoy
  have h1 : 0 ≤ yoe ∧ yoe ≤ 399 := by clear * - hera hdoe hz hs hyoe; omega
  have h2 : 0 ≤ mp ∧ mp ≤ 11 := by clear * - hB hmp; omega
  clear hs hyoe hmp
  split_ifs at hm with c1 <;>
    split_ifs at hyr hy2 with c2 <;>
      split_ifs at hmp2 with c3 <;>
        first
        | (exfalso; clear * - hm hmp2 h2 c1 c2 c3; omega)
        | (have e1 : mp2 = mp := by clear * - hm hmp2 h2 c1 c2 c3; omega
           rw [e1] at hdoy2
           have e2 : doy2 = doy := by clear * - hdoy2 hdd; omega
           have e3 : y2 = yoe + era * 400 := by clear * - hyr hy2; omega
           rw [e3] at hera2 hyoe2
           have e4 : era2 = era := by clear * - hera2 h1; omega
           have e5 : yoe2 = yoe := by clear * - hyoe2 h1; omega
           rw [e5, e2] at hdoe2
           have e6 : doe2 = doe := by clear * - hdoe2 hdoy; omega
           clear * - e4 e6 hera hdoe hz
           omega)

/-- `daysFromCivil` undoes `civilFromDays`: converting a day number to a
calendar date and back is the identity. -/
theorem dfc_cfd (n : Int) :
    daysFromCivil (civilFromDays n).1 (civilFromDays n).2.1 (civilFromDays n).2.2 = n := by
  apply roundtrip_core n <;> rfl

set_option maxHeartbeats 8000000 in
/-- Month and day bounds of `civilFromDays`, over the flattened
intermediate quantities. -/
theorem civil_bounds_core (n z era doe s yoe doy mp dd m : Int)
    (hz : z = n + 719468)
    (hera : era = z / 146097)
    (hdoe : doe = z % 146097)
    (hs : s = doe - doe / 1460 + doe / 36524 - doe / 146096)
    (hyoe : yoe = s / 365)
    (hdoy : doy = doe - (365 * yoe + yoe / 4 - yoe / 100))
    (hmp : mp = (5 * doy + 2) / 153)
    (hdd : dd = doy - (153 * mp + 2) / 5 + 1)
    (hm : m = mp + (if mp < 10 then 3 else -9)) :
    (1 ≤ m ∧ m ≤ 12) ∧ 1 ≤ dd ∧ dd ≤ 31 := by
  have hB := doy_bounds doe s yoe doy (by omega) (by omega) hs hyoe hdoy
  have h2 : 0 ≤ mp ∧ mp ≤ 11 := by clear * - hB hmp; omega
  have h3 : 1 ≤ dd ∧ dd ≤ 31 := by clear * - hB hmp hdd h2; omega
  split_ifs at hm with c1 <;> (clear * - hm h2 h3 c1; omega)

/-- The month of `civilFromDays` is in 1..12 and its day in 1..31. -/
theorem civilFromDays_bounds (n : Int) :
    (1 ≤ (civilFromDays n).2.1 ∧ (civilFromDays n).2.1 ≤ 12) ∧
      1 ≤ (civilFromDays n).2.2 ∧ (civilFromDays n).2.2 ≤ 31 := by
  apply civil_bounds_core n <;> rfl

/-- Range of `daysFromCivil` on twentieth-century dates, over the
flattened intermediate quantities. -/
theorem daysFromCivil_range_core (y m d y2 era yoe mp2 doy doe : Int)
    (hy : 1900 ≤ y ∧ y ≤ 1999) (hm : 1 ≤ m ∧ m ≤ 12) (hd : 1 ≤ d ∧ d ≤ 31)
    (hy2 : y2 = y - (if m ≤ 2 then 1 else 0))
    (hera : era = y2 / 400)
    (hyoe : yoe = y2 % 400)
    (hmp2 : mp2 = m + (if 2 < m then -3 else 9))
    (hdoy : doy = (153 * mp2 + 2) / 5 + d - 1)
    (hdoe : doe = yoe * 365 + yoe / 4 - yoe / 100 + doy) :
    -26000 ≤ era * 146097 + doe - 719468 ∧ era * 146097 + doe - 719468 ≤ 11000 := by
  split_ifs at hy2 hmp2 <;> omega

/-- A twentieth-century calendar date has a day number between
-26000 and 11000. -/
theorem daysFromCivil_range (y m d : Int)
    (hy : 1900 ≤ y ∧ y ≤ 1999) (hm : 1 ≤ m ∧ m ≤ 12) (hd : 1 ≤ d ∧ d ≤ 31) :
    -26000 ≤ daysFromCivil y m d ∧ daysFromCivil y m d ≤ 11000 := by
  apply daysFromCivil_range_core y m d _ _ _ _ _ _ hy hm hd <;> rfl

/-- Year lower bound of `civilFromDays` near the epoch, over the
flattened intermediate quantities. -/
theorem civil_year_core (n z era doe s yoe doy mp m yr : Int)
    (hn : -26000 ≤ n ∧ n ≤ 11000)
    (hz : z = n + 719468)
    (hera : era = z / 146097)
    (hdoe : doe = z % 146097)
    (hs : s = doe - doe / 1460 + doe / 36524 - doe / 146096)
    (hyoe : yoe = s / 365)
    (hdoy : doy = doe - (365 * yoe + yoe / 4 - yoe / 100))
    (hmp : mp = (5 * doy + 2) / 153)
    (hm : m = mp + (if mp < 10 then 3 else -9))
    (hyr : yr = yoe + era * 400 + (if m ≤ 2 then 1 else 0)) :
    100 ≤ yr := by
  have h1 : 0 ≤ yoe := by clear * - hera hdoe hz hs hyoe; omega
  have h4 : era = 4 := by clear * - hera hz hn; omega
  split_ifs at hyr <;> omega

/-- A day number between -26000 and 11000 falls in a year of at least
100 (in fact in 1898..2000). -/
theorem civil_year_ge (n : Int) (hn : -26000 ≤ n ∧ n ≤ 11000) :
    100 ≤ (civilFromDays n).1 := by
  apply civil_year_core n _ _ _ _ _ _ _ _ _ hn <;> rfl

/-- A date is UTC midnight exactly when its time value is a multiple of
86400000 milliseconds. -/
theorem midnight_iff (t : Int) : isMidnightUtc t = true ↔ t % 86400000 = 0 := by
  unfold isMidnightUtc getUTCHours getUTCMinutes getUTCSeconds getUTCMilliseconds
  simp only [Bool.and_eq_true, beq_iff_eq]
  omega

/-- A date that is not UTC midnight passes through the normalization
unchanged. -/
theorem normalize_not_midnight (off t : Int) (h : isMidnightUtc t = false) :
    normalizeDateOnlyToLocal off t = t := by
  simp [normalizeDateOnlyToLocal, h]

/-- Unfolding of the normalization on a UTC-midnight date: the rebuilt
date, with the constructor's year rule applied. -/
theorem normalize_midnight_eq (off t : Int) (h : isMidnightUtc t = true) :
    normalizeDateOnlyToLocal off t =
      daysFromCivil (yearMapJS (getUTCFullYear t)) (getUTCMonth t + 1) (getUTCDate t) *
          86400000 + off * 60000 := by
  simp [normalizeDateOnlyToLocal, h, newDateLocal]

/-- On a UTC-midnight date whose UTC year avoids the constructor's
two-digit range, normalization yields local midnight of the same
calendar day: day number unchanged, local clock at 00:00. -/
theorem normalize_midnight (off t : Int) (hmid : isMidnightUtc t = true)
    (hy : ¬(0 ≤ getUTCFullYear t ∧ getUTCFullYear t ≤ 99)) :
    normalizeDateOnlyToLocal off t = t / 86400000 * 86400000 + off * 60000 := by
  rw [normalize_midnight_eq off t hmid]
  unfold yearMapJS
  rw [if_neg hy]
  unfold getUTCFullYear getUTCMonth getUTCDate
  have h1 : (civilFromDays (t / 86400000)).2.1 - 1 + 1 = (civilFromDays (t / 86400000)).2.1 := by
    omega
  rw [h1, dfc_cfd]

/-- The local calendar date of the normalized UTC-midnight date is its
UTC calendar date, in every timezone (outside the two-digit years). -/
theorem localCivil_normalize_midnight (off t : Int) (hmid : isMidnightUtc t = true)
    (hy : ¬(0 ≤ getUTCFullYear t ∧ getUTCFullYear t ≤ 99)) :
    localCivil off (normalizeDateOnlyToLocal off t) = civilFromDays (t / 86400000) := by
  rw [normalize_midnight off t hmid hy]
  unfold localCivil
  have h1 : (t / 86400000 * 86400000 + off * 60000 - off * 60000) / 86400000 = t / 86400000 := by
    omega
  rw [h1]

/-- The skills demo store keys every entry by its slug. -/
theorem skillsDemoStore_wf : ∀ c s e, skillsDemoStore c s = some e → e.slug = s := by
  intro c s e h
  unfold skillsDemoStore at h
  split_ifs at h with h1 h2
  · obtain rfl := h1.2
    injection h with h
    subst h
    rfl
  · obtain rfl := h2.2
    injection h with h
    subst h
    rfl

/-- C1: under the secondary locale "es" an existing suffixed entry wins;
under the primary locale "en" the base entry is returned when present. -/
theorem localized_override_precedence (store : ContentStore) (context : ContextSliceLocale)
    (collection id : String) (e b : Entry) :
    (context.locale.code = "es" → store collection (id ++ "-es") = some e →
      getLocalizedEntry store context collection id = Except.ok e) ∧
    (context.locale.code = "en" → store collection id = some b →
      getLocalizedEntry store context collection id = Except.ok b) := by
  constructor
  · intro hes hsuf
    simp [getLocalizedEntry, getEntry, hes, hsuf]
  · intro hen hbase
    simp [getLocalizedEntry, getEntry, hen, hbase]

/-- Witness for C1: the spec's skills scenario, under both locales. -/
theorem localized_override_precedence_witness :
    getLocalizedEntry skillsDemoStore esCtx "skills" "typescript" = Except.ok typescriptEsEntry ∧
    getLocalizedEntry skillsDemoStore enCtx "skills" "typescript" = Except.ok typescriptEntry :=
  ⟨(localized_override_precedence skillsDemoStore esCtx "skills" "typescript"
      typescriptEsEntry typescriptEntry).1 rfl (by decide),
   (localized_override_precedence skillsDemoStore enCtx "skills" "typescript"
      typescriptEsEntry typescriptEntry).2 rfl (by decide)⟩

/-- C2: an identifier present only with its base slug resolves to the
base entry under every locale, in particular under "es" and "en". -/
theorem localized_base_fallback (store : ContentStore) (context : ContextSliceLocale)
    (collection id : String) (b : Entry)
    (hbase : store collection id = some b)
    (hnoes : store collection (id ++ "-es") = none) :
    getLocalizedEntry store context collection id = Except.ok b := by
  by_cases hes : context.locale.code = "es"
  · simp [getLocalizedEntry, getEntry, hes, hnoes, hbase]
  · simp [getLocalizedEntry, getEntry, hes, hbase]

/-- Witness for C2: the spec's jobs scenario, under both locales. -/
theorem localized_base_fallback_witness :
    getLocalizedEntry jobsDemoStore esCtx "jobs" "senior-developer" =
        Except.ok seniorDeveloperEntry ∧
    getLocalizedEntry jobsDemoStore enCtx "jobs" "senior-developer" =
        Except.ok seniorDeveloperEntry :=
  ⟨localized_base_fallback jobsDemoStore esCtx "jobs" "senior-developer" seniorDeveloperEntry
      (by decide) (by decide),
   localized_base_fallback jobsDemoStore enCtx "jobs" "senior-developer" seniorDeveloperEntry
      (by decide) (by decide)⟩

/-- C3: when neither slug exists the resolver, under any locale, throws
the content-not-found error naming the collection, the identifier and
the active locale code. -/
theorem missing_entry_error (store : ContentStore) (context : ContextSliceLocale)
    (collection id : String)
    (hbase : store collection id = none)
    (hsuf : store collection (id ++ "-es") = none) :
    getLocalizedEntry store context collection id =
      Except.error ("Content entry not found: collection=\"" ++ collection ++
        "\", id=\"" ++ id ++ "\", locale=\"" ++ context.locale.code ++ "\"") := by
  by_cases hes : context.locale.code = "es"
  · simp [getLocalizedEntry, getEntry, hes, hsuf, hbase]
  · simp [getLocalizedEntry, getEntry, hes, hbase]

/-- Witness for C3: a missing identifier in the skills collection. -/
theorem missing_entry_error_witness :
    getLocalizedEntry jobsDemoStore esCtx "skills" "rust" =
      Except.error ("Content entry not found: collection=\"" ++ "skills" ++
        "\", id=\"" ++ "rust" ++ "\", locale=\"" ++ esCtx.locale.code ++ "\"") :=
  missing_entry_error jobsDemoStore esCtx "skills" "rust" (by decide) (by decide)

/-- C6: every entry the resolver returns was read from the store under
the slug `id` or `id ++ "-es"`; assuming the store keys entries by their
slug, the returned slug starts with the requested identifier. -/
theorem slug_provenance (store : ContentStore) (context : ContextSliceLocale)
    (collection id : String) (e : Entry)
    (hwf : ∀ c s e2, store c s = some e2 → e2.slug = s)
    (hres : getLocalizedEntry store context collection id = Except.ok e) :
    (e.slug = id ∨ e.slug = id ++ "-es") ∧ store collection e.slug = some e := by
  simp only [getLocalizedEntry, getEntry] at hres
  split at hres
  · rename_i esEntry heq
    injection hres with h
    subst h
    split_ifs at heq with hc
    have hs := hwf _ _ _ heq
    rw [hs]
    exact ⟨Or.inr rfl, heq⟩
  · rename_i heq0
    split at hres
    · rename_i baseEntry heq
      injection hres with h
      subst h
      have hs := hwf _ _ _ heq
      rw [hs]
      exact ⟨Or.inl rfl, heq⟩
    · exact absurd hres (by simp)

/-- Witness for C6: the resolved "typescript-es" entry comes from the
store and its slug extends the requested identifier. -/
theorem slug_provenance_witness :
    (typescriptEsEntry.slug = "typescript" ∨ typescriptEsEntry.slug = "typescript" ++ "-es") ∧
    skillsDemoStore "skills" typescriptEsEntry.slug = some typescriptEsEntry :=
  slug_provenance skillsDemoStore esCtx "skills" "typescript" typescriptEsEntry
    skillsDemoStore_wf rfl

/-- C8: each named operation is extensionally the generic resolver at
its fixed collection name. -/
theorem wrappers_eq_generic (store : ContentStore) (context : ContextSliceLocale)
    (id : String) :
    getLocalizedSkill store context id = getLocalizedEntry store context "skills" id ∧
    getLocalizedJob store context id = getLocalizedEntry store context "jobs" id ∧
    getLocalizedAchievement store context id =
        getLocalizedEntry store context "achievements" id ∧
    getLocalizedEducation store context id = getLocalizedEntry store context "education" id ∧
    getLocalizedFavorite store context id = getLocalizedEntry store context "favorites" id ∧
    getLocalizedInterest store context id = getLocalizedEntry store context "interests" id :=
  ⟨rfl, rfl, rfl, rfl, rfl, rfl⟩

/-- C9: under any locale other than "es" the resolver never consults the
suffixed slug: it returns the base entry when present, errors otherwise,
and its result is unchanged under any store that agrees on the base
slug alone. -/
theorem non_es_ignores_suffix (store altStore : ContentStore) (context : ContextSliceLocale)
    (collection id : String) (h : context.locale.code ≠ "es") :
    (∀ e, store collection id = some e →
      getLocalizedEntry store context collection id = Except.ok e) ∧
    (store collection id = none →
      getLocalizedEntry store context collection id =
        Except.error ("Content entry not found: collection=\"" ++ collection ++
          "\", id=\"" ++ id ++ "\", locale=\"" ++ context.locale.code ++ "\"")) ∧
    (altStore collection id = store collection id →
      getLocalizedEntry altStore context collection id =
        getLocalizedEntry store context collection id) := by
  refine ⟨?_, ?_, ?_⟩
  · intro e he
    simp [getLocalizedEntry, getEntry, h, he]
  · intro hnone
    simp [getLocalizedEntry, getEntry, h, hnone]
  · intro hagree
    simp [getLocalizedEntry, getEntry, h, hagree]

/-- Witness for C9: under "en" the resolver returns the base entry even
though "typescript-es" is in the store, and removing the suffixed
record does not change the result. -/
theorem non_es_ignores_suffix_witness :
    getLocalizedEntry skillsDemoStore enCtx "skills" "typescript" = Except.ok typescriptEntry ∧
    getLocalizedEntry skillsBaseOnlyStore enCtx "skills" "typescript" =
      getLocalizedEntry skillsDemoStore enCtx "skills" "typescript" :=
  ⟨(non_es_ignores_suffix skillsDemoStore skillsBaseOnlyStore enCtx "skills" "typescript"
      (by decide)).1 typescriptEntry (by decide),
   (non_es_ignores_suffix skillsDemoStore skillsBaseOnlyStore enCtx "skills" "typescript"
      (by decide)).2.2 (by decide)⟩

/-- Counterexample to C4 as stated: for the UTC-midnight date of
calendar day 0050-03-15 (time value -60582988800000), the constructor's
two-digit-year rule re-maps the year, so even at offset 0 the formatter
renders 1950-03-15, not the UTC calendar day of the input. -/
theorem date_reanchor_counterexample :
    isMidnightUtc (-60582988800000) = true ∧
    getUTCFullYear (-60582988800000) = 50 ∧
    getUTCMonth (-60582988800000) + 1 = 3 ∧
    getUTCDate (-60582988800000) = 15 ∧
    localCivil 0 (normalizeDateOnlyToLocal 0 (-60582988800000)) ≠
      (getUTCFullYear (-60582988800000), getUTCMonth (-60582988800000) + 1,
        getUTCDate (-60582988800000)) ∧
    localCivil 0 (normalizeDateOnlyToLocal 0 (-60582988800000)) = (1950, 3, 15) ∧
    formatDate 0 ctxDMY (-60582988800000) = "15/03/1950" := by
  decide

/-- C4 (amended): for every UTC-midnight date whose UTC year is outside
0..99 (the range the JS `Date(y, m, d)` constructor re-maps to
1900..1999), the normalization re-anchors it to the local calendar day
given by its UTC year/month/day, in every host timezone; in particular
the spec's concrete scenario formats as "15/03/2024" at every offset. -/
theorem date_reanchor_amended (off t : Int)
    (hmid : isMidnightUtc t = true)
    (hy : ¬(0 ≤ getUTCFullYear t ∧ getUTCFullYear t ≤ 99)) :
    localCivil off (normalizeDateOnlyToLocal off t) =
      (getUTCFullYear t, getUTCMonth t + 1, getUTCDate t) ∧
    formatDate off ctxDMY 1710460800000 = "15/03/2024" := by
  constructor
  · rw [localCivil_normalize_midnight off t hmid hy]
    unfold getUTCFullYear getUTCMonth getUTCDate
    have h2 : (civilFromDays (t / 86400000)).2.1 - 1 + 1 =
        (civilFromDays (t / 86400000)).2.1 := by
      omega
    rw [h2]
  · have h1 : localCivil off (normalizeDateOnlyToLocal off 1710460800000) = (2024, 3, 15) := by
      rw [localCivil_normalize_midnight off 1710460800000 (by decide) (by decide)]
      decide
    show formatDMY off (normalizeDateOnlyToLocal off 1710460800000) = "15/03/2024"
    unfold formatDMY
    rw [h1]
    decide

/-- Witness for C4 (amended) at the spec's concrete date and offset
-300 minutes (UTC+5). -/
theorem date_reanchor_amended_witness :
    (isMidnightUtc 1710460800000 = true ∧
      ¬(0 ≤ getUTCFullYear 1710460800000 ∧ getUTCFullYear 1710460800000 ≤ 99)) ∧
    localCivil (-300) (normalizeDateOnlyToLocal (-300) 1710460800000) =
      (getUTCFullYear 1710460800000, getUTCMonth 1710460800000 + 1,
        getUTCDate 1710460800000) ∧
    formatDate (-300) ctxDMY 1710460800000 = "15/03/2024" :=
  ⟨⟨by decide, by decide⟩, date_reanchor_amended (-300) 1710460800000 (by decide) (by decide)⟩

/-- C5: a date with a non-zero UTC time component passes through the
normalization unchanged, so `formatDate` formats the original instant. -/
theorem instant_passthrough (off : Int) (context : RenderContext) (t : Int)
    (h : isMidnightUtc t = false) :
    normalizeDateOnlyToLocal off t = t ∧
    formatDate off context t = format off t context.dateFormat context.locale := by
  have h1 := normalize_not_midnight off t h
  refine ⟨h1, ?_⟩
  unfold formatDate
  rw [h1]

/-- Witness for C5 at 2024-03-15T14:30:00Z, offset 300. -/
theorem instant_passthrough_witness :
    isMidnightUtc 1710513000000 = false ∧
    (normalizeDateOnlyToLocal 300 1710513000000 = 1710513000000 ∧
      formatDate 300 ctxDMY 1710513000000 =
        format 300 1710513000000 ctxDMY.dateFormat ctxDMY.locale) :=
  ⟨by decide, instant_passthrough 300 ctxDMY 1710513000000 (by decide)⟩

/-- C7: threading the input date object through every primitive access
`formatDate` performs leaves it in its initial state (no mutation), and
the returned string is the pure function of the inputs: equal inputs
give equal output on every call. -/
theorem formatDate_pure (off : Int) (context : RenderContext) (d : Int) :
    (formatDateSt off context d).2 = d ∧
    (formatDateSt off context d).1 = formatDate off context d := by
  have e1 : normalizeDateOnlyToLocalSt off d = (normalizeDateOnlyToLocal off d, d) := by
    unfold normalizeDateOnlyToLocalSt normalizeDateOnlyToLocal
    have hs : isMidnightUtcSt d = (isMidnightUtc d, d) := rfl
    rw [hs]
    cases isMidnightUtc d <;> rfl
  unfold formatDateSt
  rw [e1]
  exact ⟨rfl, rfl⟩

/-- C10: for every host timezone offset (strictly less than one day in
magnitude) the date normalization is idempotent. -/
theorem normalize_idempotent (off t : Int) (hoff : -1440 < off ∧ off < 1440) :
    normalizeDateOnlyToLocal off (normalizeDateOnlyToLocal off t) =
      normalizeDateOnlyToLocal off t := by
  cases hb : isMidnightUtc t with
  | false =>
    have h1 := normalize_not_midnight off t hb
    rw [h1]
    exact h1
  | true =>
    have h1 := normalize_midnight_eq off t hb
    rw [h1]
    set F := daysFromCivil (yearMapJS (getUTCFullYear t)) (getUTCMonth t + 1) (getUTCDate t)
      with hF
    by_cases hz : off = 0
    · subst hz
      simp only [zero_mul, add_zero, mul_zero]
      have hmid2 : isMidnightUtc (F * 86400000) = true := (midnight_iff _).2 (by omega)
      rw [normalize_midnight_eq 0 (F * 86400000) hmid2]
      simp only [zero_mul, add_zero, mul_zero]
      have hdiv : F * 86400000 / 86400000 = F := by omega
      unfold getUTCFullYear getUTCMonth getUTCDate
      rw [hdiv]
      have hM : (civilFromDays F).2.1 - 1 + 1 = (civilFromDays F).2.1 := by omega
      rw [hM]
      have hyA : ¬(0 ≤ (civilFromDays F).1 ∧ (civilFromDays F).1 ≤ 99) := by
        by_cases hq : 0 ≤ getUTCFullYear t ∧ getUTCFullYear t ≤ 99
        · have hbm := civilFromDays_bounds (t / 86400000)
          have hMt : getUTCMonth t + 1 = (civilFromDays (t / 86400000)).2.1 := by
            unfold getUTCMonth
            omega
          have hDt : getUTCDate t = (civilFromDays (t / 86400000)).2.2 := rfl
          have hval : yearMapJS (getUTCFullYear t) = 1900 + getUTCFullYear t := by
            unfold yearMapJS
            rw [if_pos hq]
          have hFr : -26000 ≤ F ∧ F ≤ 11000 := by
            rw [hF, hval, hMt, hDt]
            exact daysFromCivil_range _ _ _ ⟨by omega, by omega⟩ hbm.1 hbm.2
          have hge := civil_year_ge F hFr
          omega
        · have hval : yearMapJS (getUTCFullYear t) = getUTCFullYear t := by
            unfold yearMapJS
            rw [if_neg hq]
          have hMt : getUTCMonth t + 1 = (civilFromDays (t / 86400000)).2.1 := by
            unfold getUTCMonth
            omega
          have hFn : F = t / 86400000 := by
            rw [hF, hval, hMt]
            unfold getUTCFullYear getUTCDate
            exact dfc_cfd (t / 86400000)
          rw [hFn]
          unfold getUTCFullYear at hq
          exact hq
      unfold yearMapJS
      rw [if_neg hyA, dfc_cfd]
    · have hnm : isMidnightUtc (F * 86400000 + off * 60000) = false := by
        cases hmm : isMidnightUtc (F * 86400000 + off * 60000) with
        | false => rfl
        | true =>
          exfalso
          have hmod := (midnight_iff _).1 hmm
          omega
      exact normalize_not_midnight off _ hnm

/-- Witness for C10 at the spec's concrete date, offset -300. -/
theorem normalize_idempotent_witness :
    (-1440 < (-300 : Int) ∧ (-300 : Int) < 1440) ∧
    normalizeDateOnlyToLocal (-300) (normalizeDateOnlyToLocal (-300) 1710460800000) =
      normalizeDateOnlyToLocal (-300) 1710460800000 :=
  ⟨by decide, normalize_idempotent (-300) 1710460800000 (by decide)⟩

end ZenithCV
